import Mathlib

/-!
# Verification of the TaskGlitch task store (`src/hooks/useTasks.ts`)

Shallow embedding of the data model and operations of the task-tracking
dashboard's `useTasks` hook.  The source file contains two versions of the
hook separated by a document marker: the original (lines 1-218) and a fixed
variant (lines 219-449).  Where the two versions differ (notably
`normalizeTasks`), both are embedded; where they agree (the CRUD operations,
`INITIAL_METRICS`, the metrics guard), a single definition covers both and
the doc comment cites both line ranges.

JavaScript values that can flow through the loosely-typed raw records are
modelled by the inductive type `JSVal`:

* numbers are exact rationals (`vNum`), with NaN split off as `vNaN`
  (all timestamp arithmetic in the source stays far below 2^53, so rational
  arithmetic is exact where the code is);
* a string that parses as a date (e.g. an ISO-8601 literal) is modelled by
  the instant it denotes (`vDateStr ms`, milliseconds since the epoch;
  `Date.prototype.toISOString` is injective on valid dates, so this is a
  faithful representation of the string), while `vStr` covers strings that
  do not parse as dates;
* `new Date(...).getTime()` values are modelled as `Option ℤ`: `none` is an
  Invalid Date, on which `toISOString()` throws a `RangeError`.

Raw input rows are modelled as objects with the nine task-shaped properties
(`RawTask`); an absent property is `vUndef`.  A thrown exception during
normalization is modelled by `Option.none` on the result.
-/

namespace TaskGlitch

/-- A JavaScript value as it can appear in a raw task record. -/
inductive JSVal where
  | vUndef : JSVal
  | vNull : JSVal
  | vNaN : JSVal
  | vNum (q : ℚ) : JSVal
  | vStr (s : String) : JSVal
  | vDateStr (ms : ℤ) : JSVal
  | vBool (b : Bool) : JSVal
deriving DecidableEq, Repr

namespace JSVal

/-- JavaScript truthiness: `undefined`, `null`, `NaN`, `0`, `""` and
`false` are falsy; every other primitive in our domain is truthy
(a date string is nonempty, hence truthy). -/
def truthy : JSVal → Bool
  | vUndef => false
  | vNull => false
  | vNaN => false
  | vNum q => q != 0
  | vStr s => s != ""
  | vDateStr _ => true
  | vBool b => b

/-- Numeric parse of a string literal, modelling `Number(s)`: an empty or
all-whitespace string coerces to 0; an optional sign followed by digits
(and an optional fractional part) parses as the denoted rational; anything
else is NaN (`none`).  (The full JS grammar also admits hex/exponent forms;
none appear in this development.) -/
def parseNum (s : String) : Option ℚ :=
  let trimmed :=
    ((s.toList.dropWhile (fun c => c = ' ')).reverse.dropWhile (fun c => c = ' ')).reverse
  let digitsToNat (u : List Char) : Option ℕ :=
    if u ≠ [] ∧ u.all Char.isDigit then
      some (u.foldl (fun a c => a * 10 + (c.toNat - 48)) 0)
    else none
  if trimmed = [] then some 0
  else
    let (sign, ds) : ℚ × List Char :=
      match trimmed with
      | '-' :: rest => (-1, rest)
      | '+' :: rest => (1, rest)
      | _ => (1, trimmed)
    match ds.splitOn '.' with
    | [intPart] => (digitsToNat intPart).map (fun n => sign * n)
    | [intPart, fracPart] =>
        match digitsToNat intPart, digitsToNat fracPart with
        | some n, some f =>
            some (sign * ((n : ℚ) + (f : ℚ) / ((10 : ℚ) ^ fracPart.length)))
        | _, _ => none
    | _ => none

/-- `Number(v)`: JavaScript numeric coercion.  Always yields a number
(possibly NaN), never `null`/`undefined`.  A string that parses as a date
(e.g. an ISO timestamp) is not numeric, so it coerces to NaN. -/
def jsNumber : JSVal → JSVal
  | vUndef => vNaN
  | vNull => vNum 0
  | vNaN => vNaN
  | vNum q => vNum q
  | vStr s => match parseNum s with
      | some q => vNum q
      | none => vNaN
  | vDateStr _ => vNaN
  | vBool b => vNum (if b then 1 else 0)

/-- The nullish-coalescing operator `a ?? b`. -/
def jsCoalesce (a b : JSVal) : JSVal :=
  if a = vNull ∨ a = vUndef then b else a

/-- Strict equality `a === b`.  Equality of the modelled values, except
that `NaN === NaN` is false.  (`vStr`/`vDateStr` model disjoint sets of
string literals, so cross-constructor comparison is correctly false.) -/
def jsStrictEqb (a b : JSVal) : Bool :=
  if a = vNaN ∨ b = vNaN then false else a = b

/-- `v <= 0` with JavaScript relational semantics: the operand is coerced
to a number and any comparison with NaN is false. -/
def jsLeZero (v : JSVal) : Bool :=
  match jsNumber v with
  | vNum q => q ≤ 0
  | _ => false

/-- `String(v)`.  A date string is rendered by its instant (the model keeps
only the instant of such a literal; only injectivity matters here).  Number
formatting differs from JS in the fractional case, which no claim observes. -/
def jsToString : JSVal → String
  | vUndef => "undefined"
  | vNull => "null"
  | vNaN => "NaN"
  | vNum q => if q.den = 1 then toString q.num else toString q
  | vStr s => s
  | vDateStr ms => "@date:" ++ toString ms
  | vBool b => if b then "true" else "false"

end JSVal

open JSVal

/-- A raw candidate record, as fetched from `tasks.json`: an object whose
nine task-shaped properties each hold an arbitrary JS value (an absent
property reads as `vUndef`).  Rows that are not objects (e.g. `null`,
numbers) are outside the modelled domain. -/
structure RawTask where
  id : JSVal := vUndef
  title : JSVal := vUndef
  revenue : JSVal := vUndef
  timeTaken : JSVal := vUndef
  priority : JSVal := vUndef
  status : JSVal := vUndef
  notes : JSVal := vUndef
  createdAt : JSVal := vUndef
  completedAt : JSVal := vUndef
deriving DecidableEq, Repr

/-- A normalized `Task` as stored by the hook.  `createdAt` is the instant
of the ISO string `created.toISOString()` (that map is injective, so the
instant represents the string faithfully); `completedAt` is whatever JS
value ends up in the field (`vUndef` when unset). -/
structure Task where
  id : JSVal
  title : JSVal
  revenue : JSVal
  timeTaken : JSVal
  priority : JSVal
  status : JSVal
  notes : JSVal
  createdAt : ℤ
  completedAt : JSVal
deriving DecidableEq, Repr

/-- The maximal magnitude of a JS time value (`8.64e15` ms). -/
def maxTime : ℤ := 8640000000000000

/-- ECMAScript `TimeClip` for an integral millisecond count: values beyond
`±8.64e15` give an Invalid Date (`none`). -/
def timeClipInt (n : ℤ) : Option ℤ :=
  if n.natAbs ≤ maxTime.natAbs then some n else none

/-- `TimeClip` for a general numeric argument to `new Date(number)`:
out-of-range gives Invalid Date, otherwise the value is truncated toward
zero to whole milliseconds. -/
def timeClip (q : ℚ) : Option ℤ :=
  if |q| ≤ (maxTime : ℚ) then
    some (if q < 0 then -((-q).floor) else q.floor)
  else none

/-- `new Date(v).getTime()` for a single argument `v`: strings are parsed
as dates (in this model exactly the `vDateStr` literals parse; other
strings — e.g. `"not-a-date"` — are Invalid), other values are coerced to
a number and clipped.  `none` is an Invalid Date. -/
def jsNewDate : JSVal → Option ℤ
  | vUndef => none
  | vNull => some 0
  | vNaN => none
  | vNum q => timeClip q
  | vStr _ => none
  | vDateStr ms => some ms
  | vBool b => timeClip (if b then 1 else 0)

/-- The `created` value of the original `normalizeTasks`
(src/hooks/useTasks.ts lines 48-50):
`t.createdAt ? new Date(t.createdAt) : new Date(now - (idx + 1) * 24 * 3600 * 1000)`,
where `now` is `Date.now()` read at the top of the call (line 46).
`none` is an Invalid Date. -/
def createdOf (now : ℤ) (idx : ℕ) (r : RawTask) : Option ℤ :=
  if truthy r.createdAt then jsNewDate r.createdAt
  else timeClipInt (now - ((idx : ℤ) + 1) * 86400000)

/-- The `completed` value shared by both versions (lines 52-56 and
280-284): `t.completedAt || (t.status === "Done" ? new Date(created.getTime()
+ 24 * 3600 * 1000).toISOString() : undefined)`, given a valid `created`
instant `c`.  `none` models the `RangeError` thrown by `toISOString()` when
`c + 24h` clips out of range. -/
def completedOf (c : ℤ) (r : RawTask) : Option JSVal :=
  if truthy r.completedAt then some r.completedAt
  else if jsStrictEqb r.status (vStr "Done") then
    (timeClipInt (c + 86400000)).map (fun c2 => vDateStr c2)
  else some vUndef

/-- The `timeTaken` coercion of both `normalizeTasks` versions (lines 62
and 290): `Number(t.timeTaken) > 0 ? Number(t.timeTaken) : 1`.  `NaN > 0`
is false, so a non-numeric value also falls back to 1. -/
def coerceTimeTaken (v : JSVal) : JSVal :=
  match jsNumber v with
  | vNum q => if 0 < q then vNum q else vNum 1
  | _ => vNum 1

/-- One record of the original `normalizeTasks` (lines 47-69).  `none`
models a thrown exception: `created.toISOString()` (line 66) and the
`completed` computation (line 55) both throw a `RangeError` on an Invalid
Date, aborting the whole `map`. -/
def normRecord (now : ℤ) (idx : ℕ) (r : RawTask) : Option Task :=
  (createdOf now idx r).bind fun c =>
    (completedOf c r).map fun comp =>
      { id := vStr (jsToString r.id),
        title := vStr (jsToString r.title),
        -- `Number(t.revenue) ?? 0` (line 61): `Number` never returns a
        -- nullish value, so the `?? 0` branch is dead and NaN flows through.
        revenue := jsCoalesce (jsNumber r.revenue) (vNum 0),
        timeTaken := coerceTimeTaken r.timeTaken,
        priority := r.priority,
        status := r.status,
        notes := jsCoalesce r.notes (vStr ""),
        createdAt := c,
        completedAt := comp }

/-- `input.map(...)` over the raw rows with the running index, for the
original `normalizeTasks`; a thrown exception (`none`) aborts the batch. -/
def normList (now : ℤ) : ℕ → List RawTask → Option (List Task)
  | _, [] => some []
  | idx, r :: rs =>
    (normRecord now idx r).bind fun t =>
      (normList now (idx + 1) rs).map fun ts => t :: ts

/-- The raw argument of `normalizeTasks`: either an array of (object) rows
or any non-array value, which `Array.isArray(input) ? input : []` treats as
empty. -/
inductive RawInput where
  | arr (l : List RawTask) : RawInput
  | notArray : RawInput
deriving DecidableEq, Repr

/-- The original `normalizeTasks` (src/hooks/useTasks.ts lines 45-70).
`now` is the ambient wall clock (`Date.now()`, line 46) at call time, passed
explicitly.  `none` models a thrown exception. -/
def normalizeTasks (now : ℤ) : RawInput → Option (List Task)
  | RawInput.arr l => normList now 0 l
  | RawInput.notArray => some []

/-- `stableDateFromId` of the fixed `normalizeTasks` (lines 267-271):
`Number(id.replace(/\D/g, "")) || 1`, mapped to day `(num % 28) + 1` of
January 2020.  The argument is `t.id ?? ""`; calling `.replace` on a
non-string value throws a `TypeError` (`none`).  `new Date(2020, 0, d)` is
modelled at UTC (the local-timezone offset is a constant within a session
and irrelevant to every claim).  A date-string id is a string; its digit
content is modelled from its instant. -/
def stableDateFromId (idv : JSVal) : Option ℤ :=
  let digitsNum (s : String) : ℕ :=
    (s.toList.filter Char.isDigit).foldl (fun a c => a * 10 + (c.toNat - 48)) 0
  let fromNum (n : ℕ) : ℤ :=
    let num := if n = 0 then 1 else n
    1577836800000 + (((num : ℤ) % 28 + 1) - 1) * 86400000
  match idv with
  | vStr s => some (fromNum (digitsNum s))
  | vDateStr ms => some (fromNum ms.natAbs)
  | _ => none

/-- One record of the fixed `normalizeTasks` (lines 273-297): `created` is
the parsed `t.createdAt` when truthy, else `stableDateFromId(t.id ?? "")`;
the raw `id`, `title`, `priority`, `status` and `notes` values are passed
through uncoerced. -/
def normRecordFixed (r : RawTask) : Option Task :=
  (if truthy r.createdAt then jsNewDate r.createdAt
   else stableDateFromId (jsCoalesce r.id (vStr ""))).bind fun c =>
    (completedOf c r).map fun comp =>
      { id := r.id,
        title := r.title,
        revenue := jsCoalesce (jsNumber r.revenue) (vNum 0),
        timeTaken := coerceTimeTaken r.timeTaken,
        priority := r.priority,
        status := r.status,
        notes := r.notes,
        createdAt := c,
        completedAt := comp }

/-- The row map of the fixed `normalizeTasks` (no index is used). -/
def normListFixed : List RawTask → Option (List Task)
  | [] => some []
  | r :: rs =>
    (normRecordFixed r).bind fun t =>
      (normListFixed rs).map fun ts => t :: ts

/-- The fixed `normalizeTasks` (src/hooks/useTasks.ts lines 265-298).  The
ambient clock `now` is passed for comparability with the original; the body
never consults it (the fixed version contains no `Date.now()`/`new Date()`
with no argument). -/
def normalizeTasksFixed (_now : ℤ) : RawInput → Option (List Task)
  | RawInput.arr l => normListFixed l
  | RawInput.notArray => some []

/-! ## The task store and its CRUD operations -/

/-- The mutable state of the store: the task collection (`tasks`, line 38)
and the single "last deleted" slot (`lastDeleted`, line 41). -/
structure StoreState where
  tasks : List Task
  lastDeleted : Option Task
deriving DecidableEq, Repr

/-- The argument of `addTask` (`Omit<Task, "id"> & { id?: string }`):
every `Task` field except that `id` may be absent.  The `createdAt` and
`completedAt` fields are present in the TS type but are overridden by
`addTask` itself. -/
structure AddInput where
  id : Option JSVal := none
  title : JSVal := vUndef
  revenue : JSVal := vUndef
  timeTaken : JSVal := vUndef
  priority : JSVal := vUndef
  status : JSVal := vUndef
  notes : JSVal := vUndef
  createdAt : ℤ := 0
  completedAt : JSVal := vUndef
deriving DecidableEq, Repr

/-- `addTask` (src/hooks/useTasks.ts lines 140-163; identically lines
376-387 of the fixed version).  `now` is the wall clock read by
`new Date().toISOString()` (line 146) and `freshId` the value produced by
`crypto.randomUUID()` (line 143), both passed explicitly. -/
def addTask (now : ℤ) (freshId : String) (inp : AddInput) (s : StoreState) : StoreState :=
  -- const id = task.id ?? crypto.randomUUID();
  let idv := jsCoalesce (inp.id.getD vUndef) (vStr freshId)
  -- const timeTaken = task.timeTaken <= 0 ? 1 : task.timeTaken;
  let tt := if jsLeZero inp.timeTaken then vNum 1 else inp.timeTaken
  -- const completedAt = status === "Done" ? createdAt : undefined;
  let comp := if jsStrictEqb inp.status (vStr "Done") then vDateStr now else vUndef
  { s with tasks := s.tasks ++ [{
      id := idv, title := inp.title, revenue := inp.revenue, timeTaken := tt,
      priority := inp.priority, status := inp.status, notes := inp.notes,
      createdAt := now, completedAt := comp }] }

/-- A `Partial<Task>` patch: each field optionally present. -/
structure Patch where
  id : Option JSVal := none
  title : Option JSVal := none
  revenue : Option JSVal := none
  timeTaken : Option JSVal := none
  priority : Option JSVal := none
  status : Option JSVal := none
  notes : Option JSVal := none
  createdAt : Option ℤ := none
  completedAt : Option JSVal := none
deriving DecidableEq, Repr

/-- The object spread `{ ...t, ...patch }` (line 171). -/
def applyPatch (t : Task) (p : Patch) : Task :=
  { id := p.id.getD t.id, title := p.title.getD t.title,
    revenue := p.revenue.getD t.revenue, timeTaken := p.timeTaken.getD t.timeTaken,
    priority := p.priority.getD t.priority, status := p.status.getD t.status,
    notes := p.notes.getD t.notes, createdAt := p.createdAt.getD t.createdAt,
    completedAt := p.completedAt.getD t.completedAt }

/-- The `completedAt` stamp of `updateTask` (lines 173-179): on a
non-Done-to-Done transition, when the merged `completedAt` is falsy
(`!merged.completedAt`), set it to the current time (`new Date()
.toISOString()`, line 178, passed as `now`). -/
def stampDone (now : ℤ) (t m : Task) : Task :=
  if (! jsStrictEqb t.status (vStr "Done")) && jsStrictEqb m.status (vStr "Done")
      && ! truthy m.completedAt
  then { m with completedAt := vDateStr now } else m

/-- The re-application of the `timeTaken > 0` coercion after the merge
(lines 181-183): `if ((patch.timeTaken ?? merged.timeTaken) <= 0)
merged.timeTaken = 1;`. -/
def updateCoerce (p : Patch) (m : Task) : Task :=
  if jsLeZero (p.timeTaken.getD m.timeTaken) then { m with timeTaken := vNum 1 }
  else m

/-- The per-task body of `updateTask`'s `prev.map` (lines 168-186): a task
with a different id is returned untouched; a matching task is merged with
the patch, stamped, and re-coerced.  (The fixed version, lines 389-413,
computes the same result in two passes.) -/
def updateOne (now : ℤ) (id : JSVal) (p : Patch) (t : Task) : Task :=
  if ! jsStrictEqb t.id id then t
  else updateCoerce p (stampDone now t (applyPatch t p))

/-- `updateTask` (src/hooks/useTasks.ts lines 165-190). -/
def updateTask (now : ℤ) (id : JSVal) (p : Patch) (s : StoreState) : StoreState :=
  { s with tasks := s.tasks.map (updateOne now id p) }

/-- `deleteTask` (src/hooks/useTasks.ts lines 192-198; identically lines
415-421): `setLastDeleted(prev.find(t => t.id === id) || null)` runs
unconditionally, then the collection is filtered. -/
def deleteTask (id : JSVal) (s : StoreState) : StoreState :=
  { tasks := s.tasks.filter (fun t => ! jsStrictEqb t.id id),
    lastDeleted := s.tasks.find? (fun t => jsStrictEqb t.id id) }

/-- `undoDelete` (src/hooks/useTasks.ts lines 200-204; identically lines
423-427): a no-op on an empty slot, otherwise re-append the task and clear
the slot. -/
def undoDelete (s : StoreState) : StoreState :=
  match s.lastDeleted with
  | none => s
  | some t => { tasks := s.tasks ++ [t], lastDeleted := none }

/-! ## Metrics

`INITIAL_METRICS` and the empty-collection guard are in
src/hooks/useTasks.ts (lines 28-35 and 124-135; identically lines 247-254
and 353-371).  The aggregate helpers live in `src/utils/logic.ts`, which is
not part of the provided sources, so they are modelled from the spec. -/

/-- NaN-propagating addition of JS numbers. -/
def jsAdd (a b : JSVal) : JSVal :=
  match jsNumber a, jsNumber b with
  | vNum x, vNum y => vNum (x + y)
  | _, _ => vNaN

/-- Modelled from the spec (§4.2; `src/utils/logic.ts` is missing from the
sources): per-record ROI = revenue / timeTaken with an explicit sentinel of
0 for a non-positive (or non-numeric) denominator, never an unguarded
division. -/
def computeROI (t : Task) : JSVal :=
  match jsNumber t.timeTaken, jsNumber t.revenue with
  | vNum d, vNum r => if d ≤ 0 then vNum 0 else vNum (r / d)
  | vNum d, _ => if d ≤ 0 then vNum 0 else vNaN
  | _, _ => vNum 0

/-- Modelled from the spec (§4.2): totalRevenue = sum of revenue. -/
def computeTotalRevenue (tasks : List Task) : JSVal :=
  tasks.foldl (fun a t => jsAdd a t.revenue) (vNum 0)

/-- `tasks.reduce((s, t) => s + t.timeTaken, 0)` (line 129). -/
def computeTotalTimeTaken (tasks : List Task) : JSVal :=
  tasks.foldl (fun a t => jsAdd a t.timeTaken) (vNum 0)

/-- Modelled from the spec (§4.2): proportion of total time attributable to
Done tasks, as a 0-100 percentage, with a 0 fallback for a non-positive
total. -/
def computeTimeEfficiency (tasks : List Task) : JSVal :=
  let done := tasks.filter (fun t => jsStrictEqb t.status (vStr "Done"))
  match computeTotalTimeTaken tasks, computeTotalTimeTaken done with
  | vNum tot, vNum dn => if tot ≤ 0 then vNum 0 else vNum (dn / tot * 100)
  | _, _ => vNaN

/-- Modelled from the spec (§4.2): totalRevenue / totalTimeTaken, guarded
against a non-positive denominator. -/
def computeRevenuePerHour (tasks : List Task) : JSVal :=
  match computeTotalRevenue tasks, computeTotalTimeTaken tasks with
  | vNum r, vNum tot => if tot ≤ 0 then vNum 0 else vNum (r / tot)
  | _, _ => vNaN

/-- Modelled from the spec (§4.2): mean of the per-record ROI values, with
a 0 fallback on an empty list. -/
def computeAverageROI (tasks : List Task) : JSVal :=
  if tasks.length = 0 then vNum 0
  else match tasks.foldl (fun a t => jsAdd a (computeROI t)) (vNum 0) with
    | vNum s => vNum (s / tasks.length)
    | _ => vNaN

/-- Modelled from the spec (§4.2): threshold bands over averageROI, total
over all inputs, with "Needs Improvement" as the floor label (the label of
`INITIAL_METRICS`). -/
def computePerformanceGrade (roi : JSVal) : String :=
  match roi with
  | vNum q => if 2 ≤ q then "Excellent" else if 1 ≤ q then "Good" else "Needs Improvement"
  | _ => "Needs Improvement"

/-- The `Metrics` record (`src/types.ts` shape as used at lines 28-35). -/
structure Metrics where
  totalRevenue : JSVal
  totalTimeTaken : JSVal
  timeEfficiencyPct : JSVal
  revenuePerHour : JSVal
  averageROI : JSVal
  performanceGrade : String
deriving DecidableEq, Repr

/-- `INITIAL_METRICS` (src/hooks/useTasks.ts lines 28-35; identically
lines 247-254). -/
def INITIAL_METRICS : Metrics :=
  { totalRevenue := vNum 0, totalTimeTaken := vNum 0, timeEfficiencyPct := vNum 0,
    revenuePerHour := vNum 0, averageROI := vNum 0,
    performanceGrade := "Needs Improvement" }

/-- The `metrics` memo (src/hooks/useTasks.ts lines 124-135; identically
lines 353-371): on an empty collection `INITIAL_METRICS` is returned
directly, before any aggregate is computed. -/
def metrics (tasks : List Task) : Metrics :=
  if tasks.length = 0 then INITIAL_METRICS
  else
    { totalRevenue := computeTotalRevenue tasks,
      totalTimeTaken := computeTotalTimeTaken tasks,
      timeEfficiencyPct := computeTimeEfficiency tasks,
      revenuePerHour := computeRevenuePerHour tasks,
      averageROI := computeAverageROI tasks,
      performanceGrade := computePerformanceGrade (computeAverageROI tasks) }

/-! ## The one-shot fetch guard -/

/-- The session-persistent state of the load effect: the one-shot flag
`fetchedRef` (line 43) and a count of how many times the guarded body — the
fetch / normalize / seed pass (lines 79-110) — has run. -/
structure SessionState where
  fetched : Bool
  loads : ℕ
deriving DecidableEq, Repr

/-- One firing of the load effect (src/hooks/useTasks.ts lines 75-77;
identically lines 303-305): `if (fetchedRef.current) return;
fetchedRef.current = true;` followed by the load pass. -/
def fireEffect (s : SessionState) : SessionState :=
  if s.fetched then s else { fetched := true, loads := s.loads + 1 }

/-- `n` consecutive firings of the load effect. -/
def fireTimes : ℕ → SessionState → SessionState
  | 0, s => s
  | n + 1, s => fireTimes n (fireEffect s)

/-- The state at the start of a session: `useRef<boolean>(false)`. -/
def initialSession : SessionState := { fetched := false, loads := 0 }

/-! ## Concrete fixtures -/

/-- A well-formed stored task used in concrete instances. -/
def taskA : Task :=
  { id := vStr "a", title := vStr "A", revenue := vNum 5, timeTaken := vNum 1,
    priority := vStr "Low", status := vStr "Open", notes := vStr "",
    createdAt := 0, completedAt := vUndef }

/-- A second well-formed stored task with a distinct id. -/
def taskB : Task :=
  { taskA with id := vStr "b", title := vStr "B" }

/-- A raw row with a parseable (numeric) `createdAt`. -/
def rawWithCreated : RawTask :=
  { id := vStr "a", status := vStr "Open", createdAt := vNum 1000 }

/-- A raw row whose `createdAt` is absent. -/
def rawNoCreated : RawTask :=
  { id := vStr "a", status := vStr "Open" }

/-- A raw row whose revenue is the non-numeric string "abc". -/
def rawBadRevenue : RawTask :=
  { id := vStr "b", revenue := vStr "abc", timeTaken := vNum 2, createdAt := vNum 1000 }

/-! ## Helper lemmas -/

/-- A map by a function that fixes every member is the identity. -/
theorem list_map_eq_self {α : Type} (l : List α) (f : α → α)
    (h : ∀ a ∈ l, f a = a) : l.map f = l := by
  conv_rhs => rw [← List.map_id l]
  exact List.map_congr_left h

/-- The original `normList` does not depend on the clock on rows whose
`createdAt` is truthy. -/
theorem normList_clock_indep (now now' : ℤ) (idx : ℕ) (l : List RawTask)
    (h : ∀ r ∈ l, truthy r.createdAt = true) :
    normList now idx l = normList now' idx l := by
  induction l generalizing idx with
  | nil => rfl
  | cons r rs ih =>
      have hr : truthy r.createdAt = true := h r (List.mem_cons_self r rs)
      have hrec : normRecord now idx r = normRecord now' idx r := by
        simp [normRecord, createdOf, hr]
      simp only [normList, hrec,
        ih (idx + 1) (fun x hx => h x (List.mem_cons_of_mem _ hx))]

/-! ## C1 — determinism of normalization -/

/-- C1 is false as stated: the original `normalizeTasks` reads `Date.now()`
and derives the `createdAt` fallback from it, so normalizing the very same
raw input (one row lacking `createdAt`) at two different times yields
different output. -/
theorem normalizeTasks_clock_counterexample :
    normalizeTasks 0 (RawInput.arr [rawNoCreated]) ≠
      normalizeTasks 86400000 (RawInput.arr [rawNoCreated]) := by
  decide

/-- C1 (amended): the fixed `normalizeTasks` is deterministic — its output
never depends on the ambient clock (its `createdAt` fallback is derived
from the record's id alone); the original `normalizeTasks` is clock
independent only on inputs in which every row supplies a truthy
`createdAt`. -/
theorem normalization_determinism :
    (∀ (now now' : ℤ) (v : RawInput),
        normalizeTasksFixed now v = normalizeTasksFixed now' v) ∧
    (∀ (now now' : ℤ) (l : List RawTask), (∀ r ∈ l, truthy r.createdAt = true) →
        normalizeTasks now (RawInput.arr l) = normalizeTasks now' (RawInput.arr l)) := by
  constructor
  · intro now now' v
    cases v <;> rfl
  · intro now now' l h
    simpa only [normalizeTasks] using normList_clock_indep now now' 0 l h

/-- Witness for C1's amended theorem at concrete inputs. -/
theorem normalization_determinism_witness :
    normalizeTasks 3 (RawInput.arr [rawWithCreated]) =
      normalizeTasks 7 (RawInput.arr [rawWithCreated]) ∧
    normalizeTasksFixed 3 (RawInput.arr [rawNoCreated]) =
      normalizeTasksFixed 7 (RawInput.arr [rawNoCreated]) :=
  ⟨normalization_determinism.2 3 7 [rawWithCreated] (by decide),
   normalization_determinism.1 3 7 (RawInput.arr [rawNoCreated])⟩

/-! ## C2 — the revenue NaN fallback -/

/-- C2: the claimed fallback does not exist in the code.  `Number(t.revenue)`
never returns a nullish value, so `Number(t.revenue) ?? 0` (line 61, and
line 289 of the fixed version) stores NaN for a non-numeric revenue such as
the string "abc", instead of the documented 0. -/
theorem normalizeTasks_revenue_nan :
    (normalizeTasks 0 (RawInput.arr [rawBadRevenue])).map (List.map Task.revenue)
      = some [vNaN] ∧
    (normalizeTasksFixed 0 (RawInput.arr [rawBadRevenue])).map (List.map Task.revenue)
      = some [vNaN] ∧
    JSVal.vNaN ≠ JSVal.vNum 0 := by
  decide

/-! ## C8 — metrics on an empty collection -/

/-- C8: on an empty collection the metrics guard returns the fixed
`INITIAL_METRICS` value directly (before any aggregate function runs), and
that value is the all-zero record with the floor performance grade (the
grade the bands assign to any negative average ROI). -/
theorem metrics_empty_initial :
    metrics [] = INITIAL_METRICS ∧
    INITIAL_METRICS =
      { totalRevenue := vNum 0, totalTimeTaken := vNum 0, timeEfficiencyPct := vNum 0,
        revenuePerHour := vNum 0, averageROI := vNum 0,
        performanceGrade := "Needs Improvement" } ∧
    computePerformanceGrade (vNum (-1)) = INITIAL_METRICS.performanceGrade := by
  decide

/-! ## C10 — the one-shot fetch guard -/

/-- `fireTimes` fixes a state whose flag is already set. -/
theorem fireTimes_fetched (n : ℕ) (k : ℕ) :
    fireTimes n { fetched := true, loads := k } = { fetched := true, loads := k } := by
  induction n with
  | zero => rfl
  | succ m ih => simpa only [fireTimes, fireEffect] using ih

/-- C10: however many times (at least one) the load effect fires within a
session, the guarded fetch-normalize-seed pass runs exactly once: the first
firing sets the one-shot flag and runs the pass, every later firing returns
at the guard. -/
theorem fetch_effect_once (n : ℕ) (h : 1 ≤ n) :
    (fireTimes n initialSession).loads = 1 := by
  cases n with
  | zero => omega
  | succ m =>
      have h1 : fireEffect initialSession = { fetched := true, loads := 1 } := rfl
      simp only [fireTimes, h1, fireTimes_fetched]

/-- Witness for C10 at five firings. -/
theorem fetch_effect_once_witness : (fireTimes 5 initialSession).loads = 1 :=
  fetch_effect_once 5 (by decide)

/-! ## C4 — mutations with an unknown id -/

/-- C4 is false as stated: `deleteTask` runs
`setLastDeleted(prev.find(t => t.id === id) || null)` unconditionally
(lines 194-195), so deleting an id that is not present clears a previously
occupied "last deleted" slot instead of leaving it unchanged. -/
theorem deleteTask_unknown_id_counterexample :
    deleteTask (vStr "zz") { tasks := [taskA], lastDeleted := some taskB } =
      { tasks := [taskA], lastDeleted := none } ∧
    some taskB ≠ (none : Option Task) := by
  decide

/-- C4 (amended): for an id not present in the collection, `updateTask` is
a full no-op and `deleteTask` leaves the collection unchanged and raises no
error, but `deleteTask` resets the "last deleted" slot to empty (it stores
a copy only when a record with the id is present and removed). -/
theorem unknown_id_mutations (now : ℤ) (id : JSVal) (p : Patch) (s : StoreState)
    (h : ∀ t ∈ s.tasks, jsStrictEqb t.id id = false) :
    updateTask now id p s = s ∧
    (deleteTask id s).tasks = s.tasks ∧
    (deleteTask id s).lastDeleted = none := by
  refine ⟨?_, ?_, ?_⟩
  · have hmap : s.tasks.map (updateOne now id p) = s.tasks :=
      list_map_eq_self _ _ (fun t ht => by simp [updateOne, h t ht])
    show { s with tasks := s.tasks.map (updateOne now id p) } = s
    rw [hmap]
  · exact List.filter_eq_self.mpr (fun t ht => by simp [h t ht])
  · exact List.find?_eq_none.mpr (fun t ht => by simp [h t ht])

/-- Witness for C4's amended theorem on a one-task store. -/
theorem unknown_id_mutations_witness :
    updateTask 0 (vStr "zz") {} { tasks := [taskA], lastDeleted := none } =
      { tasks := [taskA], lastDeleted := none } ∧
    (deleteTask (vStr "zz") { tasks := [taskA], lastDeleted := none }).tasks = [taskA] ∧
    (deleteTask (vStr "zz") { tasks := [taskA], lastDeleted := none }).lastDeleted = none :=
  unknown_id_mutations 0 (vStr "zz") {} { tasks := [taskA], lastDeleted := none }
    (by decide)

/-! ## C5 — delete followed by undo -/

/-- C5: deleting a present id and immediately undoing restores a
membership-equal collection, and a second `undoDelete` with no intervening
delete is a no-op.  The present id is assumed unique up to task identity
(spec §3 declares `id` an opaque unique identifier): all members matching
the id are the same task value. -/
theorem delete_undo_roundtrip (s : StoreState) (id : JSVal)
    (hpres : ∃ t ∈ s.tasks, jsStrictEqb t.id id = true)
    (huniq : ∀ a ∈ s.tasks, ∀ b ∈ s.tasks,
      jsStrictEqb a.id id = true → jsStrictEqb b.id id = true → a = b) :
    (∀ x, x ∈ (undoDelete (deleteTask id s)).tasks ↔ x ∈ s.tasks) ∧
    (undoDelete (deleteTask id s)).lastDeleted = none ∧
    undoDelete (undoDelete (deleteTask id s)) = undoDelete (deleteTask id s) := by
  have hsome : (s.tasks.find? (fun t => jsStrictEqb t.id id)).isSome := by
    rw [List.find?_isSome]; exact hpres
  obtain ⟨t0, hf⟩ := Option.isSome_iff_exists.mp hsome
  have ht0p := List.find?_some hf
  have ht0mem := List.mem_of_find?_eq_some hf
  have hundo : undoDelete (deleteTask id s) =
      { tasks := s.tasks.filter (fun t => ! jsStrictEqb t.id id) ++ [t0],
        lastDeleted := none } := by
    simp [deleteTask, hf, undoDelete]
  refine ⟨?_, by rw [hundo], by rw [hundo]; exact rfl⟩
  intro x
  rw [hundo]
  simp only [List.mem_append, List.mem_filter, List.mem_singleton]
  constructor
  · rintro (⟨hx, _⟩ | rfl)
    · exact hx
    · exact ht0mem
  · intro hx
    rcases hb : jsStrictEqb x.id id with _ | _
    · exact Or.inl ⟨hx, by simp [hb]⟩
    · exact Or.inr (huniq x hx t0 ht0mem hb ht0p)

/-- Witness for C5 on a two-task store, deleting the first task's id. -/
theorem delete_undo_roundtrip_witness :
    (taskA ∈
      (undoDelete (deleteTask (vStr "a")
        { tasks := [taskA, taskB], lastDeleted := none })).tasks) ∧
    undoDelete (undoDelete (deleteTask (vStr "a")
        { tasks := [taskA, taskB], lastDeleted := none })) =
      undoDelete (deleteTask (vStr "a")
        { tasks := [taskA, taskB], lastDeleted := none }) := by
  have h := delete_undo_roundtrip { tasks := [taskA, taskB], lastDeleted := none }
    (vStr "a") ⟨taskA, by decide, by decide⟩ (by decide)
  exact ⟨(h.1 taskA).mpr (by decide), h.2.2⟩

/-! ## C3 — the `timeTaken > 0` invariant -/

/-- `v` is a number strictly greater than zero. -/
def posNumb (v : JSVal) : Bool :=
  match v with
  | vNum q => decide (0 < q)
  | _ => false

/-- The stored task satisfies the `timeTaken > 0` invariant. -/
def posTTb (t : Task) : Bool := posNumb t.timeTaken

/-- An optional task (the "last deleted" slot) satisfies the invariant. -/
def optPosb : Option Task → Bool
  | none => true
  | some t => posTTb t

/-- Both the collection and the "last deleted" slot satisfy the
`timeTaken > 0` invariant. -/
def storePosb (s : StoreState) : Bool :=
  s.tasks.all posTTb && optPosb s.lastDeleted

/-- Store states reachable by the hook's own operations when every
`timeTaken` handed to `addTask`/`updateTask` is an actual number (not NaN),
as the TS `number` fields are meant to carry: seeding with a normalized
batch, adding, updating, deleting and undoing. -/
inductive ReachableNum : StoreState → Prop where
  | empty : ReachableNum { tasks := [], lastDeleted := none }
  | seed (now : ℤ) (inp : RawInput) (ts : List Task) (s : StoreState) :
      ReachableNum s → normalizeTasks now inp = some ts →
      ReachableNum { tasks := ts, lastDeleted := s.lastDeleted }
  | add (now : ℤ) (fid : String) (inp : AddInput) (s : StoreState) (q : ℚ) :
      ReachableNum s → inp.timeTaken = vNum q →
      ReachableNum (addTask now fid inp s)
  | update (now : ℤ) (id : JSVal) (p : Patch) (s : StoreState) :
      ReachableNum s →
      (p.timeTaken = none ∨ ∃ q : ℚ, p.timeTaken = some (vNum q)) →
      ReachableNum (updateTask now id p s)
  | del (id : JSVal) (s : StoreState) :
      ReachableNum s → ReachableNum (deleteTask id s)
  | undo (s : StoreState) :
      ReachableNum s → ReachableNum (undoDelete s)

/-- The normalizer's `timeTaken` coercion always yields a positive number. -/
theorem coerceTimeTaken_pos (v : JSVal) : posNumb (coerceTimeTaken v) = true := by
  unfold coerceTimeTaken
  rcases hn : jsNumber v with _ | _ | _ | q | s | ms | b <;> try decide
  · show posNumb (if 0 < q then vNum q else vNum 1) = true
    by_cases h : 0 < q
    · rw [if_pos h]; simpa [posNumb] using h
    · rw [if_neg h]; decide
  all_goals (show posNumb (vNum 1) = true; decide)

/-- Splits the store invariant into its two components. -/
theorem storePos_parts (s : StoreState) (h : storePosb s = true) :
    s.tasks.all posTTb = true ∧ optPosb s.lastDeleted = true := by
  unfold storePosb at h
  simp only [Bool.and_eq_true] at h
  exact h

/-- Every record produced by the original normalizer satisfies the
invariant. -/
theorem normRecord_posTT (now : ℤ) (idx : ℕ) (r : RawTask) (t : Task)
    (h : normRecord now idx r = some t) : posTTb t = true := by
  unfold normRecord at h
  obtain ⟨c, _, hmap⟩ := Option.bind_eq_some.mp h
  obtain ⟨comp, _, heq⟩ := Option.map_eq_some'.mp hmap
  subst heq
  exact coerceTimeTaken_pos r.timeTaken

/-- Every batch produced by the original normalizer satisfies the
invariant. -/
theorem normList_posTT (now : ℤ) (idx : ℕ) (l : List RawTask) (ts : List Task)
    (h : normList now idx l = some ts) : ts.all posTTb = true := by
  induction l generalizing idx ts with
  | nil =>
      simp only [normList, Option.some.injEq] at h
      subst h; rfl
  | cons r rs ih =>
      simp only [normList] at h
      obtain ⟨t, ht, hmap⟩ := Option.bind_eq_some.mp h
      obtain ⟨ts', hts', heq⟩ := Option.map_eq_some'.mp hmap
      subst heq
      simp only [List.all_cons, Bool.and_eq_true]
      exact ⟨normRecord_posTT now idx r t ht, ih (idx + 1) ts' hts'⟩

/-- The stamp never changes `timeTaken`. -/
theorem stampDone_timeTaken (now : ℤ) (t m : Task) :
    (stampDone now t m).timeTaken = m.timeTaken := by
  unfold stampDone
  split <;> rfl

/-- One `updateTask` pass preserves the invariant on a task, provided the
patch's `timeTaken` (when present) is an actual number. -/
theorem updateOne_pos (now : ℤ) (id : JSVal) (p : Patch) (t : Task)
    (hp : p.timeTaken = none ∨ ∃ q : ℚ, p.timeTaken = some (vNum q))
    (h : posTTb t = true) : posTTb (updateOne now id p t) = true := by
  unfold updateOne
  by_cases hid : (! jsStrictEqb t.id id) = true
  · rw [if_pos hid]; exact h
  · rw [if_neg hid]
    unfold updateCoerce
    by_cases hg : jsLeZero (p.timeTaken.getD (stampDone now t (applyPatch t p)).timeTaken) = true
    · rw [if_pos hg]; rfl
    · rw [if_neg hg]
      show posNumb (stampDone now t (applyPatch t p)).timeTaken = true
      rw [stampDone_timeTaken]
      show posNumb (p.timeTaken.getD t.timeTaken) = true
      rcases hp with hp | ⟨q, hp⟩
      · rw [hp, Option.getD_none]; exact h
      · rw [hp, Option.getD_some]
        rw [hp, Option.getD_some] at hg
        have hq : ¬ q ≤ 0 := fun hle => hg (by simp [jsLeZero, jsNumber, hle])
        simp only [posNumb, decide_eq_true_eq]
        linarith

/-- `storePosb` is preserved along every `ReachableNum` step. -/
theorem storePos_of_reachable (s : StoreState) (h : ReachableNum s) :
    storePosb s = true := by
  induction h with
  | empty => rfl
  | seed now inp ts s hr hn ih =>
      rcases inp with l | _
      · simp only [normalizeTasks] at hn
        simp only [storePosb, Bool.and_eq_true]
        exact ⟨normList_posTT now 0 l ts hn, (storePos_parts s ih).2⟩
      · simp only [normalizeTasks, Option.some.injEq] at hn
        subst hn
        simpa only [storePosb, List.all_nil, Bool.true_and]
          using (storePos_parts s ih).2
  | add now fid inp s q hr hq ih =>
      obtain ⟨hall, hld⟩ := storePos_parts s ih
      simp only [storePosb, addTask, Bool.and_eq_true, List.all_append, List.all_cons,
        List.all_nil, Bool.and_true]
      refine ⟨⟨hall, ?_⟩, hld⟩
      show posNumb (if jsLeZero inp.timeTaken then vNum 1 else inp.timeTaken) = true
      rw [hq]
      by_cases hle : q ≤ 0
      · simp [jsLeZero, jsNumber, hle, posNumb]
      · have : jsLeZero (vNum q) = false := by
          simp [jsLeZero, jsNumber, hle]
        rw [this]
        simp only [Bool.false_eq_true, if_false, posNumb, decide_eq_true_eq]
        linarith
  | update now id p s hr hp ih =>
      obtain ⟨hall, hld⟩ := storePos_parts s ih
      simp only [storePosb, updateTask, Bool.and_eq_true, List.all_eq_true]
      constructor
      · intro t ht
        obtain ⟨t0, ht0, rfl⟩ := List.mem_map.mp ht
        exact updateOne_pos now id p t0 hp (List.all_eq_true.mp hall t0 ht0)
      · exact hld
  | del id s hr ih =>
      obtain ⟨hall, hld⟩ := storePos_parts s ih
      simp only [storePosb, deleteTask, Bool.and_eq_true]
      constructor
      · rw [List.all_eq_true] at hall ⊢
        exact fun t ht => hall t (List.mem_of_mem_filter ht)
      · show optPosb (s.tasks.find? (fun t => jsStrictEqb t.id id)) = true
        rcases hf : s.tasks.find? (fun t => jsStrictEqb t.id id) with _ | t
        · rw [hf]; rfl
        · rw [hf]
          exact List.all_eq_true.mp hall t (List.mem_of_find?_eq_some hf)
  | undo s hr ih =>
      obtain ⟨hall, hld⟩ := storePos_parts s ih
      rcases hl : s.lastDeleted with _ | t
      · have hu : undoDelete s = s := by unfold undoDelete; rw [hl]
        rw [hu]; exact ih
      · have hu : undoDelete s = { tasks := s.tasks ++ [t], lastDeleted := none } := by
          unfold undoDelete; rw [hl]
        rw [hu]
        rw [hl] at hld
        simp only [storePosb, List.all_append, List.all_cons, List.all_nil,
          Bool.and_true, Bool.and_eq_true]
        exact ⟨⟨hall, by simpa [optPosb] using hld⟩, rfl⟩

/-- C3 is false as stated: `addTask` only coerces `timeTaken <= 0` (line
144), and `NaN <= 0` is false in JavaScript, so a NaN `timeTaken` (well
typed for the TS `number` field) is stored untouched, neither coerced to 1
nor a number greater than zero.  (`updateTask`'s re-coercion, lines
181-183, has the same hole.) -/
theorem addTask_nan_counterexample :
    ((addTask 0 "f" { title := vStr "t", timeTaken := vNaN, status := vStr "Open" }
        { tasks := [], lastDeleted := none }).tasks.all posTTb) = false ∧
    (addTask 0 "f" { title := vStr "t", timeTaken := vNaN, status := vStr "Open" }
        { tasks := [], lastDeleted := none }).tasks.map Task.timeTaken = [vNaN] ∧
    JSVal.vNaN ≠ JSVal.vNum 1 := by
  decide

/-- C3 (amended): every store reachable by normalization seeding, adding,
updating, deleting and undoing satisfies `timeTaken > 0` for every task,
provided every `timeTaken` supplied to `addTask` and `updateTask` is an
actual number (not NaN): `normalizeTasks` coerces non-numeric or
non-positive values to 1, while `addTask`/`updateTask` coerce only values
`<= 0` and let NaN through. -/
theorem timeTaken_invariant (s : StoreState) (h : ReachableNum s) :
    s.tasks.all posTTb = true :=
  (storePos_parts s (storePos_of_reachable s h)).1

/-! ## C6 — the `completedAt` rule of normalization -/

/-- A raw row with status Done, a parseable `createdAt` and no
`completedAt`. -/
def rawDone : RawTask :=
  { id := vStr "c", status := vStr "Done", createdAt := vNum 86400000 }

/-- A raw record that supplies a falsy `completedAt` (the number 0, a valid
epoch timestamp). -/
def rawFalsyCompleted : RawTask :=
  { id := vStr "c", completedAt := vNum 0, status := vStr "Done",
    createdAt := vNum 86400000 }

/-- C6 is false as stated: a supplied `completedAt` is kept only when
truthy.  `t.completedAt || (...)` (lines 52-56) drops a supplied falsy
value such as the number 0 and, with status Done, replaces it with
`createdAt + 24h`. -/
theorem completedAt_falsy_counterexample :
    (normalizeTasks 0 (RawInput.arr [rawFalsyCompleted])).map (List.map Task.completedAt)
      = some [vDateStr 172800000] ∧
    rawFalsyCompleted.completedAt = vNum 0 ∧
    JSVal.vDateStr 172800000 ≠ JSVal.vNum 0 := by
  decide

/-- C6 (amended): for a record whose `created` instant `c` is valid (and
`c + 24h` in range), the normalized `completedAt` is: the raw `completedAt`
when truthy; otherwise `createdAt + 24 hours` exactly, when status is Done;
otherwise unset (a supplied falsy `completedAt` is dropped).  The output
`createdAt` is `c`. -/
theorem normalize_completedAt_rule (now : ℤ) (r : RawTask) (c : ℤ)
    (hc : createdOf now 0 r = some c)
    (hclip : timeClipInt (c + 86400000) = some (c + 86400000)) :
    (normalizeTasks now (RawInput.arr [r])).map (List.map Task.completedAt) =
      some [if truthy r.completedAt then r.completedAt
            else if jsStrictEqb r.status (vStr "Done") then vDateStr (c + 86400000)
            else vUndef] ∧
    (normalizeTasks now (RawInput.arr [r])).map (List.map Task.createdAt) =
      some [c] := by
  have hcomp : completedOf c r =
      some (if truthy r.completedAt then r.completedAt
            else if jsStrictEqb r.status (vStr "Done") then vDateStr (c + 86400000)
            else vUndef) := by
    unfold completedOf
    by_cases h1 : truthy r.completedAt = true
    · rw [if_pos h1, if_pos h1]
    · rw [if_neg h1, if_neg h1]
      by_cases h2 : jsStrictEqb r.status (vStr "Done") = true
      · rw [if_pos h2, if_pos h2, hclip]; rfl
      · rw [if_neg h2, if_neg h2]
  have hrec : normRecord now 0 r = some
      { id := vStr (jsToString r.id), title := vStr (jsToString r.title),
        revenue := jsCoalesce (jsNumber r.revenue) (vNum 0),
        timeTaken := coerceTimeTaken r.timeTaken,
        priority := r.priority, status := r.status,
        notes := jsCoalesce r.notes (vStr ""), createdAt := c,
        completedAt := (if truthy r.completedAt then r.completedAt
          else if jsStrictEqb r.status (vStr "Done") then vDateStr (c + 86400000)
          else vUndef) } := by
    unfold normRecord
    rw [hc, Option.some_bind, hcomp, Option.map_some']
  constructor <;>
    simp only [normalizeTasks, normList, hrec, Option.some_bind, Option.map_some',
      List.map]

/-- Witness for C6's amended theorem: a Done record created at day 1 gets
`completedAt` = day 2. -/
theorem normalize_completedAt_rule_witness :
    (normalizeTasks 5 (RawInput.arr [rawDone])).map (List.map Task.completedAt) =
      some [vDateStr 172800000] ∧
    (normalizeTasks 5 (RawInput.arr [rawDone])).map (List.map Task.createdAt) =
      some [(86400000 : ℤ)] := by
  have h := normalize_completedAt_rule 5 rawDone 86400000 (by decide) (by decide)
  refine ⟨?_, h.2⟩
  rw [h.1]
  decide

/-! ## C7 — the Done-transition stamp of `updateTask` -/

/-- A stored task that is not Done but still carries a (truthy) stale
`completedAt` — reachable, since updating a Done task back to In Progress
does not clear `completedAt`. -/
def taskStale : Task :=
  { taskA with status := vStr "In Progress", completedAt := vDateStr 5 }

/-- C7 is false as stated: the stamp is guarded by `!merged.completedAt`
(line 176), not by "the patch does not supply completedAt".  A non-Done
task with a leftover truthy `completedAt`, patched to Done without a
`completedAt`, keeps the stale value instead of being stamped with the
current time. -/
theorem updateTask_stale_completedAt_counterexample :
    (updateTask 99 (vStr "a") { status := some (vStr "Done") }
        { tasks := [taskStale], lastDeleted := none }).tasks.map Task.completedAt
      = [vDateStr 5] ∧
    JSVal.vDateStr 5 ≠ JSVal.vDateStr 99 := by
  decide

/-- C7 (amended): when a stored task transitions from non-Done to Done and
the merged `completedAt` is falsy (the patch does not supply one and the
record holds no leftover truthy value), `updateTask` stamps `completedAt`
with the current time; that stamp is ≥ the record's `createdAt` exactly
when the clock is (which the code does not itself enforce). -/
theorem updateTask_done_stamp (now : ℤ) (id : JSVal) (p : Patch) (s : StoreState)
    (t : Task)
    (hmem : t ∈ s.tasks)
    (hid : jsStrictEqb t.id id = true)
    (hnd : jsStrictEqb t.status (vStr "Done") = false)
    (hpd : jsStrictEqb (p.status.getD t.status) (vStr "Done") = true)
    (hpc : p.completedAt = none)
    (htc : truthy t.completedAt = false)
    (hclock : t.createdAt ≤ now) :
    (updateOne now id p t).completedAt = vDateStr now ∧
    updateOne now id p t ∈ (updateTask now id p s).tasks ∧
    t.createdAt ≤ now := by
  refine ⟨?_, ?_, hclock⟩
  · unfold updateOne
    rw [if_neg (by simp [hid])]
    have hcond : ((! jsStrictEqb t.status (vStr "Done")) &&
        jsStrictEqb (applyPatch t p).status (vStr "Done") &&
        ! truthy (applyPatch t p).completedAt) = true := by
      have h2 : (applyPatch t p).completedAt = t.completedAt := by
        show p.completedAt.getD t.completedAt = t.completedAt
        rw [hpc]; rfl
      have h1 : (applyPatch t p).status = p.status.getD t.status := rfl
      rw [h1, h2, hnd, hpd, htc]
      rfl
    have hstamp : stampDone now t (applyPatch t p) =
        { applyPatch t p with completedAt := vDateStr now } := by
      unfold stampDone
      rw [if_pos hcond]
    unfold updateCoerce
    rw [hstamp]
    split <;> rfl
  · show updateOne now id p t ∈ s.tasks.map (updateOne now id p)
    exact List.mem_map_of_mem _ hmem

/-- Witness for C7's amended theorem: patching a fresh Open task to Done at
time 7 stamps `completedAt` with 7. -/
theorem updateTask_done_stamp_witness :
    (updateOne 7 (vStr "a") { status := some (vStr "Done") } taskA).completedAt =
      vDateStr 7 ∧
    updateOne 7 (vStr "a") { status := some (vStr "Done") } taskA ∈
      (updateTask 7 (vStr "a") { status := some (vStr "Done") }
        { tasks := [taskA], lastDeleted := none }).tasks := by
  have h := updateTask_done_stamp 7 (vStr "a") { status := some (vStr "Done") }
    { tasks := [taskA], lastDeleted := none } taskA (by decide) (by decide)
    (by decide) (by decide) rfl (by decide) (by decide)
  exact ⟨h.1, h.2.1⟩

/-! ## C9 — length and order preservation of normalization -/

/-- Every row of the batch normalizes without throwing, at its position. -/
def allOk (now : ℤ) : ℕ → List RawTask → Bool
  | _, [] => true
  | idx, r :: rs => (normRecord now idx r).isSome && allOk now (idx + 1) rs

/-- A raw row whose truthy `createdAt` does not parse as a date. -/
def rawBadDate : RawTask :=
  { id := vStr "d", createdAt := vStr "not-a-date" }

/-- C9 is false as stated: a malformed record can abort the whole batch.
A row with a truthy unparseable `createdAt` makes `created` an Invalid
Date, `created.toISOString()` (line 66) throws a `RangeError`, and
`normalizeTasks` returns nothing at all instead of an array of the input's
length. -/
theorem normalizeTasks_abort_counterexample :
    normalizeTasks 0 (RawInput.arr [rawNoCreated, rawBadDate]) = none ∧
    (normalizeTasks 0 (RawInput.arr [rawNoCreated, rawBadDate])).map List.length
      ≠ some 2 := by
  decide

/-- When every row normalizes, `normList` returns the batch in order. -/
theorem normList_total (now : ℤ) (idx : ℕ) (l : List RawTask)
    (h : allOk now idx l = true) :
    ∃ out, normList now idx l = some out ∧ out.length = l.length ∧
      ∀ i r, l.get? i = some r →
        ∃ t, normRecord now (idx + i) r = some t ∧ out.get? i = some t := by
  induction l generalizing idx with
  | nil => exact ⟨[], rfl, rfl, by intro i r hir; simp at hir⟩
  | cons r rs ih =>
      simp only [allOk, Bool.and_eq_true, Option.isSome_iff_exists] at h
      obtain ⟨⟨t, ht⟩, hrest⟩ := h
      obtain ⟨out, hout, hlen, hidx⟩ := ih (idx + 1) hrest
      refine ⟨t :: out, ?_, by simp [hlen], ?_⟩
      · simp only [normList, ht, Option.some_bind, hout, Option.map_some']
      · intro i r' hir
        cases i with
        | zero =>
            simp only [List.get?] at hir
            injection hir with hir
            subst hir
            exact ⟨t, by rw [Nat.add_zero]; exact ht, rfl⟩
        | succ j =>
            simp only [List.get?] at hir
            obtain ⟨t', ht', hout'⟩ := hidx j r' hir
            refine ⟨t', ?_, hout'⟩
            rw [show idx + (j + 1) = (idx + 1) + j by omega]
            exact ht'

/-- C9 (amended): a non-array input yields the empty batch, and an array
input in which every row normalizes without throwing (no truthy unparseable
`createdAt`, no out-of-range date) yields an array of the same length whose
`i`-th record is the normalization of the `i`-th input row — order
preserved, and no such record aborts the others.  A row that throws aborts
the whole batch. -/
theorem normalizeTasks_length_order (now : ℤ) (l : List RawTask)
    (h : allOk now 0 l = true) :
    normalizeTasks now RawInput.notArray = some [] ∧
    ∃ out, normalizeTasks now (RawInput.arr l) = some out ∧
      out.length = l.length ∧
      ∀ i r, l.get? i = some r →
        ∃ t, normRecord now i r = some t ∧ out.get? i = some t := by
  refine ⟨rfl, ?_⟩
  obtain ⟨out, hout, hlen, hidx⟩ := normList_total now 0 l h
  exact ⟨out, hout, hlen, fun i r hir => by simpa using hidx i r hir⟩

/-- Witness for C9's amended theorem on a two-row batch. -/
theorem normalizeTasks_length_order_witness :
    (normalizeTasks 0 (RawInput.arr [rawWithCreated, rawNoCreated])).map List.length
      = some 2 := by
  obtain ⟨out, hout, hlen, _⟩ :=
    (normalizeTasks_length_order 0 [rawWithCreated, rawNoCreated] (by decide)).2
  rw [hout]
  simpa using hlen

/-- Witness for C3's amended theorem: a store reached by adding a task with
`timeTaken` 0 (coerced to 1) satisfies the invariant. -/
theorem timeTaken_invariant_witness :
    (addTask 5 "a" { title := vStr "t", timeTaken := vNum 0, status := vStr "Open" }
        { tasks := [], lastDeleted := none }).tasks.all posTTb = true :=
  timeTaken_invariant _
    (ReachableNum.add 5 "a"
      { title := vStr "t", timeTaken := vNum 0, status := vStr "Open" }
      { tasks := [], lastDeleted := none } 0 ReachableNum.empty rfl)

end TaskGlitch
